import Mathlib

/-!
Verification development for the AI_Test_Automation repository.

We give a shallow embedding of the three Python modules
`src/requirements_parser.py`, `src/test_generator.py` and `src/executor.py`
and prove or refute the specification claims about them.

Strings are modelled as `List Char`.  The Python `re` patterns used by the
parser are modelled by a small backtracking regular-expression engine
(`Re` / `outcomes`) that reproduces Python's leftmost, first-alternative,
greedy-maximum-first / lazy-minimum-first matching order for the pattern
combinators actually occurring in the source.  `$` is modelled as
end-of-input: the source only matches `$` behind `\s*` on `.strip()`-ed
text, where Python's "also just before a trailing newline" refinement is
observationally equivalent.  Character classes (`\s`, `\w`, upper case,
`str.lower`) are modelled on their ASCII meaning.
-/

/-- Python `\s` whitespace class (ASCII part): space, tab, newline,
carriage return, vertical tab, form feed.  Also the character set removed
by `str.strip()`. -/
def pyIsSpace (c : Char) : Bool :=
  c = ' ' || c = '\t' || c = '\n' || c = '\r' || c = '\x0b' || c = '\x0c'

/-- Python `\w` word class (ASCII part): letters, digits and underscore. -/
def pyIsWord (c : Char) : Bool :=
  c.isAlphanum || c = '_'

/-- ASCII model of a single-character `str.lower()`: each basic latin
capital letter is mapped to its lower-case counterpart, every other
character is unchanged. -/
def pyLowerChar (c : Char) : Char :=
  match c with
  | 'A' => 'a' | 'B' => 'b' | 'C' => 'c' | 'D' => 'd' | 'E' => 'e'
  | 'F' => 'f' | 'G' => 'g' | 'H' => 'h' | 'I' => 'i' | 'J' => 'j'
  | 'K' => 'k' | 'L' => 'l' | 'M' => 'm' | 'N' => 'n' | 'O' => 'o'
  | 'P' => 'p' | 'Q' => 'q' | 'R' => 'r' | 'S' => 's' | 'T' => 't'
  | 'U' => 'u' | 'V' => 'v' | 'W' => 'w' | 'X' => 'x' | 'Y' => 'y'
  | 'Z' => 'z'
  | c => c

/-- Python `str.lower()` on the ASCII model. -/
def pyLower (s : List Char) : List Char :=
  s.map pyLowerChar

/-- Python `str.strip()`: remove leading and trailing whitespace. -/
def pyStrip (s : List Char) : List Char :=
  ((s.dropWhile pyIsSpace).reverse.dropWhile pyIsSpace).reverse

/-- Python's substring operator `pat in s` on strings. -/
def listContains (s pat : List Char) : Bool :=
  if pat.isPrefixOf s then true
  else
    match s with
    | [] => false
    | _ :: tl => listContains tl pat

/-- Regular-expression abstract syntax for the patterns used in
`requirements_parser.py`.  All repetition operators in the source apply to
single-character classes, which is all this engine supports. -/
inductive Re where
  /-- a literal string -/
  | str : List Char → Re
  | cat : Re → Re → Re
  | alt : Re → Re → Re
  /-- greedy `c*` over a character class -/
  | starG : (Char → Bool) → Re
  /-- greedy `c+` over a character class -/
  | plusG : (Char → Bool) → Re
  /-- lazy `c+?` over a character class -/
  | plusL : (Char → Bool) → Re
  /-- the single capturing group of a pattern -/
  | grp : Re → Re
  /-- `$` (modelled as end of input, see module comment) -/
  | eos : Re

/-- Suffixes of `s` reachable by consuming 0, 1, 2, … characters
satisfying `p`, in increasing consumption order. -/
def sufsAsc (p : Char → Bool) : List Char → List (List Char)
  | [] => [[]]
  | c :: cs => (c :: cs) :: (if p c then sufsAsc p cs else [])

/-- All ways a pattern can match a prefix of `s`, as
(captured group, remaining input) pairs, listed in Python's backtracking
priority order: alternatives left first, greedy repetition longest first,
lazy repetition shortest first. -/
def outcomes : Re → List Char → List (Option (List Char) × List Char)
  | .str l, s => if l.isPrefixOf s then [(none, s.drop l.length)] else []
  | .cat a b, s =>
      (outcomes a s).flatMap fun o1 =>
        (outcomes b o1.2).map fun o2 => (o1.1 <|> o2.1, o2.2)
  | .alt a b, s => outcomes a s ++ outcomes b s
  | .starG p, s => (sufsAsc p s).reverse.map fun t => (none, t)
  | .plusG p, s => ((sufsAsc p s).drop 1).reverse.map fun t => (none, t)
  | .plusL p, s => ((sufsAsc p s).drop 1).map fun t => (none, t)
  | .grp r, s =>
      (outcomes r s).map fun o => (some (s.take (s.length - o.2.length)), o.2)
  | .eos, s => if s = [] then [(none, s)] else []

/-- `re.search`: try to match at position 0, 1, 2, …; return the first
match's (captured group, input remaining after the match). -/
def searchFrom (r : Re) : List Char → Option (Option (List Char) × List Char)
  | [] => (outcomes r []).head?
  | c :: cs =>
    match (outcomes r (c :: cs)).head? with
    | some o => some o
    | none => searchFrom r cs

/-- `re.search(...).group(1)` when the search succeeds with a captured
group. -/
def reSearchGroup (r : Re) (s : List Char) : Option (List Char) :=
  match searchFrom r s with
  | some (some g, _) => some g
  | _ => none

/-- `re.findall` loop with explicit fuel (each round consumes at least one
character, so `s.length` rounds of fuel always suffice; see `refindall`). -/
def refindallF (r : Re) : Nat → List Char → List (List Char)
  | 0, _ => []
  | fuel + 1, s =>
    match searchFrom r s with
    | none => []
    | some (cap, rest) =>
      if rest.length < s.length then
        cap.getD [] :: refindallF r fuel rest
      else
        [cap.getD []]

/-- `re.findall` for a pattern with one group: collect the group of each
successive non-overlapping match, resuming after each match's end.  (The
patterns in the source can never match the empty string, which the
length guard reflects.) -/
def refindall (r : Re) (s : List Char) : List (List Char) :=
  refindallF r s.length s

/-- helper: `e₁e₂e₃` concatenation. -/
def reCat3 (a b c : Re) : Re := .cat a (.cat b c)

/-- `with\s+([^.]+?)(?:\s+and|\s*\.|\s*$)` -/
def withRe : Re :=
  reCat3 (.str "with".data) (.plusG pyIsSpace)
    (.cat (.grp (.plusL (fun c => c ≠ '.')))
      (.alt (.cat (.plusG pyIsSpace) (.str "and".data))
        (.alt (.cat (.starG pyIsSpace) (.str ".".data))
          (.cat (.starG pyIsSpace) .eos))))

/-- `using\s+([^.]+?)(?:\s+and|\s*\.|\s*$)` -/
def usingRe : Re :=
  reCat3 (.str "using".data) (.plusG pyIsSpace)
    (.cat (.grp (.plusL (fun c => c ≠ '.')))
      (.alt (.cat (.plusG pyIsSpace) (.str "and".data))
        (.alt (.cat (.starG pyIsSpace) (.str ".".data))
          (.cat (.starG pyIsSpace) .eos))))

/-- `(valid\s+\w+)` -/
def validRe : Re :=
  .grp (reCat3 (.str "valid".data) (.plusG pyIsSpace) (.plusG pyIsWord))

/-- `(invalid\s+\w+)` -/
def invalidRe : Re :=
  .grp (reCat3 (.str "invalid".data) (.plusG pyIsSpace) (.plusG pyIsWord))

/-- `should\s+(\w+)` -/
def shouldWordRe : Re :=
  reCat3 (.str "should".data) (.plusG pyIsSpace) (.grp (.plusG pyIsWord))

/-- `should\s+(.+?)(?:\s*\.|\s*$)` (`.` is any character except newline) -/
def shouldClauseRe : Re :=
  reCat3 (.str "should".data) (.plusG pyIsSpace)
    (.cat (.grp (.plusL (fun c => c ≠ '\n')))
      (.alt (.cat (.starG pyIsSpace) (.str ".".data))
        (.cat (.starG pyIsSpace) .eos)))

/-- `RequirementsParser.action_keywords` (`__init__`). -/
def actionKeywords : List (List Char) :=
  ["login".data, "register".data, "validate".data, "authenticate".data,
   "create".data, "delete".data, "update".data, "view".data,
   "display".data, "search".data]

/-- `RequirementsParser._extract_feature`. -/
def extractFeature (text : List Char) : List Char :=
  match actionKeywords.find? (fun k => listContains text k) with
  | some k => k
  | none =>
    match reSearchGroup shouldWordRe text with
    | some w => w
    | none => "unknown_feature".data

/-- `RequirementsParser._extract_conditions`. -/
def extractConditions (text : List Char) : List (List Char) :=
  let withMatch := (refindall withRe text).map pyStrip
  let usingMatch := (refindall usingRe text).map pyStrip
  let validMatch := refindall validRe text
  let invalidMatch := refindall invalidRe text
  let conditions := withMatch ++ usingMatch ++ validMatch ++ invalidMatch
  if conditions = [] then ["no specific conditions".data] else conditions

/-- `RequirementsParser._extract_expected_outcome`. -/
def extractExpected (text : List Char) : List Char :=
  if listContains text "successful".data then
    "successful ".data ++ extractFeature text
  else if listContains text "failure".data || listContains text "error".data then
    "failure or error message".data
  else
    match reSearchGroup shouldClauseRe text with
    | some g => pyStrip g
    | none => "system responds appropriately".data

/-- The structured record produced by the parser
(`{"feature": …, "conditions": …, "expected": …, "original_text": …}`). -/
structure StructuredRequirement where
  feature : List Char
  conditions : List (List Char)
  expected : List Char
  original_text : List Char
deriving DecidableEq, Repr

/-- `RequirementsParser.parse_requirement`. -/
def parseRequirement (requirement_text : List Char) : StructuredRequirement :=
  let text := pyStrip (pyLower requirement_text)
  { feature := extractFeature text
    conditions := extractConditions text
    expected := extractExpected text
    original_text := requirement_text }

-- Regression checks of the regex engine against CPython `re` behaviour.
example :
    refindall withRe "the system should allow login with username and password.".data
      = ["username".data] := by decide
example :
    refindall withRe "with a and with b. with  .".data
      = ["a".data, "b".data, " ".data] := by decide
example : refindall withRe "go with x andy then.".data = ["x".data] := by decide
example :
    reSearchGroup shouldClauseRe "he should  go  now".data
      = some "go  now".data := by decide
example : reSearchGroup shouldClauseRe "should  .\nq".data = some " ".data := by
  decide
example : reSearchGroup shouldWordRe "should  .\nq".data = none := by decide
example : refindall validRe "invalid data".data = ["valid data".data] := by decide

/-- `', '.join(xs)` -/
def joinComma (xs : List (List Char)) : List Char :=
  List.intercalate ", ".data xs

/-- The feature / first-condition cleaning step of
`Generator._generate_test_name`: `.replace(' ', '_').replace('-', '_')`
(two sequential single-character replacements). -/
def cleanToken (s : List Char) : List Char :=
  (s.map fun c => if c = ' ' then '_' else c).map fun c =>
    if c = '-' then '_' else c

/-- `Generator._generate_test_name`. -/
def genTestName (feature : List Char) (conditions : List (List Char)) :
    List Char :=
  let clean_feature := cleanToken feature
  let condition_suffix :=
    if conditions = [] ∨ conditions = ["no specific conditions".data] then []
    else
      let first_condition := cleanToken (conditions.headD [])
      let meaningful_words := (first_condition.splitOn '_').filter fun w =>
        !(w == "and".data || w == "or".data || w == "with".data ||
          w == "using".data)
      if meaningful_words = [] then []
      else '_' :: List.intercalate "_".data (meaningful_words.take 2)
  "test_".data ++ clean_feature ++ condition_suffix

/-- `Generator._generate_login_test`. -/
def generateLoginTest (test_name : List Char) (conditions : List (List Char))
    (expected original_text : List Char) : List Char :=
  "def ".data ++ test_name ++
  "():\n    \"\"\"\n    Test case generated from requirement:\n    ".data ++
  original_text ++
  "\n\n    Feature: login\n    Conditions: ".data ++
  joinComma conditions ++
  "\n    Expected: ".data ++
  expected ++
  "\n    \"\"\"\n    # Arrange\n    username = \"valid_user\"\n    password = \"valid_password\"\n\n    # Act\n    result = login_system(username, password)\n\n    # Assert\n    assert result is not None, \"Login should return a result\"\n    assert result.get(\x27status\x27) == \x27success\x27, \"Login should be successful\"\n    assert \x27user_id\x27 in result, \"Login result should contain user_id\"\n\ndef login_system(username: str, password: str) -> dict:\n    \"\"\"Mock login function - replace with actual implementation\"\"\"\n    if username and password:\n        return \x7b\"status\": \"success\", \"user_id\": \"12345\"\x7d\n    return \x7b\"status\": \"failure\", \"error\": \"Invalid credentials\"\x7d\n".data

/-- `Generator._generate_register_test`. -/
def generateRegisterTest (test_name : List Char)
    (conditions : List (List Char)) (expected original_text : List Char) :
    List Char :=
  "def ".data ++ test_name ++
  "():\n    \"\"\"\n    Test case generated from requirement:\n    ".data ++
  original_text ++
  "\n\n    Feature: register/registration\n    Conditions: ".data ++
  joinComma conditions ++
  "\n    Expected: ".data ++
  expected ++
  "\n    \"\"\"\n    # Arrange\n    user_data = \x7b\n        \"username\": \"new_user\",\n        \"email\": \"user@example.com\",\n        \"password\": \"secure_password\"\n    \x7d\n\n    # Act\n    result = register_user(user_data)\n\n    # Assert\n    assert result is not None, \"Registration should return a result\"\n    assert result.get(\x27status\x27) == \x27success\x27, \"Registration should be successful\"\n    assert \x27user_id\x27 in result, \"Registration result should contain user_id\"\n\ndef register_user(user_data: dict) -> dict:\n    \"\"\"Mock registration function - replace with actual implementation\"\"\"\n    if user_data.get(\x27email\x27) and user_data.get(\x27password\x27):\n        return \x7b\"status\": \"success\", \"user_id\": \"67890\"\x7d\n    return \x7b\"status\": \"failure\", \"error\": \"Invalid user data\"\x7d\n".data

/-- `Generator._generate_validation_test`. -/
def generateValidationTest (test_name : List Char)
    (conditions : List (List Char)) (expected original_text : List Char) :
    List Char :=
  "def ".data ++ test_name ++
  "():\n    \"\"\"\n    Test case generated from requirement:\n    ".data ++
  original_text ++
  "\n\n    Feature: validate/validation\n    Conditions: ".data ++
  joinComma conditions ++
  "\n    Expected: ".data ++
  expected ++
  "\n    \"\"\"\n    # Arrange\n    test_data = \"sample_input\"\n\n    # Act\n    result = validate_input(test_data)\n\n    # Assert\n    assert result is not None, \"Validation should return a result\"\n    if \"valid\" in \"".data ++
  expected ++
  "\":\n        assert result.get(\x27is_valid\x27) is True, \"Input should be valid\"\n    else:\n        assert result.get(\x27is_valid\x27) is False, \"Input should be invalid\"\n\ndef validate_input(data: str) -> dict:\n    \"\"\"Mock validation function - replace with actual implementation\"\"\"\n    if data and len(data) > 0:\n        return \x7b\"is_valid\": True, \"message\": \"Valid input\"\x7d\n    return \x7b\"is_valid\": False, \"message\": \"Invalid input\"\x7d\n".data

/-- `Generator._generate_search_test`. -/
def generateSearchTest (test_name : List Char)
    (conditions : List (List Char)) (expected original_text : List Char) :
    List Char :=
  "def ".data ++ test_name ++
  "():\n    \"\"\"\n    Test case generated from requirement:\n    ".data ++
  original_text ++
  "\n\n    Feature: search\n    Conditions: ".data ++
  joinComma conditions ++
  "\n    Expected: ".data ++
  expected ++
  "\n    \"\"\"\n    # Arrange\n    search_query = \"test query\"\n\n    # Act\n    results = search_function(search_query)\n\n    # Assert\n    assert results is not None, \"Search should return results\"\n    assert isinstance(results, list), \"Search results should be a list\"\n    if \"relevant\" in \"".data ++
  expected ++
  "\":\n        assert len(results) > 0, \"Search should return relevant results\"\n\ndef search_function(query: str) -> list:\n    \"\"\"Mock search function - replace with actual implementation\"\"\"\n    if query:\n        return [\x7b\"title\": \"Result 1\", \"relevance\": 0.9\x7d]\n    return []\n".data

/-- `Generator._generate_generic_test`. -/
def generateGenericTest (test_name feature : List Char)
    (conditions : List (List Char)) (expected original_text : List Char) :
    List Char :=
  "def ".data ++ test_name ++
  "():\n    \"\"\"\n    Test case generated from requirement:\n    ".data ++
  original_text ++
  "\n\n    Feature: ".data ++
  feature ++
  "\n    Conditions: ".data ++
  joinComma conditions ++
  "\n    Expected: ".data ++
  expected ++
  "\n    \"\"\"\n    # Arrange\n    # TODO: Set up test data based on your specific feature\n    test_input = \"sample_input\"\n\n    # Act\n    # TODO: Replace with actual function call for \x27".data ++
  feature ++
  "\x27\n    result = ".data ++
  feature ++
  "_function(test_input)\n\n    # Assert\n    assert result is not None, f\"".data ++
  feature ++
  " should return a result\"\n    # TODO: Add specific assertions based on expected outcome: ".data ++
  expected ++
  "\n\ndef ".data ++
  feature ++
  "_function(input_data):\n    \"\"\"Mock function for ".data ++
  feature ++
  " - replace with actual implementation\"\"\"\n    # TODO: Implement actual ".data ++
  feature ++
  " logic\n    return \x7b\"status\": \"success\", \"data\": input_data\x7d\n".data

/-- `Generator._generate_test_code` (template dispatch by feature). -/
def generateTestCode (test_name feature : List Char)
    (conditions : List (List Char)) (expected original_text : List Char) :
    List Char :=
  if feature = "login".data then
    generateLoginTest test_name conditions expected original_text
  else if feature = "register".data ∨ feature = "registration".data then
    generateRegisterTest test_name conditions expected original_text
  else if feature = "validate".data ∨ feature = "validation".data then
    generateValidationTest test_name conditions expected original_text
  else if feature = "search".data then
    generateSearchTest test_name conditions expected original_text
  else
    generateGenericTest test_name feature conditions expected original_text

/-- `Generator.generate_test_from_requirement`.  (The structured record
always carries all four keys, so the `dict.get` defaults of the source are
never taken.) -/
def generateTestFromRequirement (req : StructuredRequirement) : List Char :=
  let test_name := genTestName req.feature req.conditions
  generateTestCode test_name req.feature req.conditions req.expected
    req.original_text

/-- `Generator.generate_test_file`: the produced file content, with the
generation clock passed in as `now`.  (The write to disk and the
timestamp-derived default filename are external effects not modelled
here.) -/
def generateTestFile (now : List Char) (reqs : List StructuredRequirement) :
    List Char :=
  let header :=
    "\"\"\"\nGenerated Test File\nCreated on: ".data ++ now ++
    "\nNumber of test cases: ".data ++ (toString reqs.length).data ++
    "\n\nThis file was automatically generated from structured requirements.\nModify as needed for your specific implementation.\n\"\"\"\n\nimport pytest\nfrom typing import Dict, List, Optional\n\n".data
  header ++ List.intercalate "\n\n".data (reqs.map generateTestFromRequirement)

/-- One step of the feature-grouping loop of
`Generator.generate_multiple_files`: Python dict insertion (update the
first entry with an equal key, otherwise append a new key at the end). -/
def insertReq (groups : List (List Char × List StructuredRequirement))
    (f : List Char) (r : StructuredRequirement) :
    List (List Char × List StructuredRequirement) :=
  match groups with
  | [] => [(f, [r])]
  | (k, rs) :: tl =>
    if k = f then (k, rs ++ [r]) :: tl else (k, rs) :: insertReq tl f r

/-- The `feature_groups` dict of `Generator.generate_multiple_files`,
as an insertion-ordered association list. -/
def featureGroups (reqs : List StructuredRequirement) :
    List (List Char × List StructuredRequirement) :=
  reqs.foldl (fun g r => insertReq g r.feature r) []

/-- `os.path.join` for a relative second component. -/
def pathJoin (d n : List Char) : List Char :=
  if d = [] then n
  else if d.getLast? = some '/' then d ++ n
  else d ++ '/' :: n

/-- `Generator.generate_multiple_files`: the returned list of file paths
(one `test_<feature>.py` per feature group, in group-encounter order). -/
def generateMultipleFiles (output_dir : List Char)
    (reqs : List StructuredRequirement) : List (List Char) :=
  (featureGroups reqs).map fun g =>
    pathJoin output_dir ("test_".data ++ g.1 ++ ".py".data)

/-- The (path, file content) pairs written by
`Generator.generate_multiple_files` via `generate_test_file`. -/
def generatedFileContents (now output_dir : List Char)
    (reqs : List StructuredRequirement) : List (List Char × List Char) :=
  (featureGroups reqs).map fun g =>
    (pathJoin output_dir ("test_".data ++ g.1 ++ ".py".data),
     generateTestFile now g.2)

/-- A Python value appearing in an executor result dict. -/
inductive PVal where
  | s : List Char → PVal
  | i : Int → PVal
  | b : Bool → PVal
  /-- Python `None` -/
  | nil : PVal
deriving DecidableEq, Repr

/-- A Python result dict, as an insertion-ordered association list. -/
def PyDict := List (List Char × PVal)

/-- `TestReporter._get_status_message`. -/
def getStatusMessage (exit_code : Int) : List Char :=
  if exit_code = 0 then "🎉 All tests passed!".data
  else if exit_code = 1 then "❌ Some tests failed".data
  else if exit_code = 5 then "⚠️ No tests collected".data
  else "❓ Unknown exit code: ".data ++ (toString exit_code).data

/-- Outcome of one external `subprocess.run` call: normal completion with
an exit code and captured output, `subprocess.TimeoutExpired` (carrying
its `str(e)` text), or any other exception (carrying its `str(e)` text). -/
inductive ProcOutcome where
  | completed : Int → List Char → List Char → ProcOutcome
  | timedOut : List Char → ProcOutcome
  | failed : List Char → ProcOutcome

/-- `TestReporter.run_tests_with_html_report`, as a function of the
subprocess outcome.  `now` is the `datetime.now().isoformat()` reading,
`html_report_path` the report path computed before the call and
`htmlExists` the `os.path.exists` check on it. -/
def runHtmlReport (now html_report_path : List Char) (htmlExists : Bool)
    (o : ProcOutcome) : PyDict :=
  match o with
  | .completed rc out err =>
    [("timestamp".data, .s now),
     ("exit_code".data, .i rc),
     ("success".data, .b (rc == 0)),
     ("html_report_path".data,
      if htmlExists then .s html_report_path else .nil),
     ("stdout".data, .s out),
     ("stderr".data, .s err),
     ("report_type".data, .s "HTML".data),
     ("message".data, .s (getStatusMessage rc))]
  | .timedOut _ =>
    [("error".data, .s "Test execution timed out".data),
     ("success".data, .b false)]
  | .failed e =>
    [("error".data, .s e), ("success".data, .b false)]

/-- `TestReporter.run_tests_with_allure_report`, as a function of the two
subprocess outcomes (`pytest` run, then `allure generate`).  An exception
raised by either call reaches the same two `except` clauses. -/
def runAllureReport (now results_dir report_dir : List Char)
    (o1 o2 : ProcOutcome) : PyDict :=
  match o1 with
  | .timedOut _ =>
    [("error".data, .s "Test execution timed out".data),
     ("success".data, .b false)]
  | .failed e =>
    [("error".data, .s e), ("success".data, .b false)]
  | .completed rc out err =>
    match o2 with
    | .timedOut _ =>
      [("error".data, .s "Test execution timed out".data),
       ("success".data, .b false)]
    | .failed e =>
      [("error".data, .s e), ("success".data, .b false)]
    | .completed rc2 _ _ =>
      [("timestamp".data, .s now),
       ("exit_code".data, .i rc),
       ("success".data, .b (rc == 0)),
       ("allure_results_dir".data, .s results_dir),
       ("allure_report_dir".data,
        if rc2 == 0 then .s report_dir else .nil),
       ("stdout".data, .s out),
       ("stderr".data, .s err),
       ("allure_generation_success".data, .b (rc2 == 0)),
       ("report_type".data, .s "Allure".data),
       ("message".data, .s (getStatusMessage rc))]

/-- `TestReporter.run_tests_with_json_report`, as a function of the
subprocess outcome.  This variant has no dedicated `TimeoutExpired`
clause: every exception, timeout included, reaches the generic
`except Exception` handler.  `jsonExists` is the `os.path.exists` check
on the report path and `json_data` the value loaded from it. -/
def runJsonReport (now json_report_path : List Char) (jsonExists : Bool)
    (json_data : PVal) (o : ProcOutcome) : PyDict :=
  match o with
  | .completed rc out err =>
    [("timestamp".data, .s now),
     ("exit_code".data, .i rc),
     ("success".data, .b (rc == 0)),
     ("json_report_path".data,
      if jsonExists then .s json_report_path else .nil),
     ("json_data".data, if jsonExists then json_data else .nil),
     ("stdout".data, .s out),
     ("stderr".data, .s err),
     ("report_type".data, .s "JSON".data),
     ("message".data, .s (getStatusMessage rc))]
  | .timedOut e =>
    [("error".data, .s e), ("success".data, .b false)]
  | .failed e =>
    [("error".data, .s e), ("success".data, .b false)]

/-- Key lookup in a result dict (`results.get(k)` / `results[k]`). -/
def dictGet (d : PyDict) (k : List Char) : Option PVal :=
  match d with
  | [] => none
  | (k2, v) :: tl => if k2 = k then some v else dictGet tl k

/-! ### Properties of the regex engine -/

theorem sufsAsc_suffix {p : Char → Bool} :
    ∀ {s t : List Char}, t ∈ sufsAsc p s → t <:+ s := by
  intro s
  induction s with
  | nil => intro t ht; simp [sufsAsc] at ht; simp [ht]
  | cons c cs ih =>
    intro t ht
    simp only [sufsAsc, List.mem_cons] at ht
    rcases ht with h | h
    · simp [h]
    · split at h
      · exact (ih h).trans (List.suffix_cons c cs)
      · simp at h

theorem sufsAsc_drop_lt {p : Char → Bool} :
    ∀ {s t : List Char}, t ∈ (sufsAsc p s).drop 1 → t.length < s.length := by
  intro s
  cases s with
  | nil => intro t ht; simp [sufsAsc] at ht
  | cons c cs =>
    intro t ht
    simp only [sufsAsc, List.drop_succ_cons, List.drop_zero] at ht
    split at ht
    · have := sufsAsc_suffix ht
      have := this.length_le
      simp only [List.length_cons]
      omega
    · simp at ht

theorem mem_outcomes_cat {a b : Re} {s : List Char}
    {cap : Option (List Char)} {rest : List Char}
    (h : (cap, rest) ∈ outcomes (.cat a b) s) :
    ∃ o1 o2, o1 ∈ outcomes a s ∧ o2 ∈ outcomes b o1.2 ∧
      cap = (o1.1 <|> o2.1) ∧ rest = o2.2 := by
  simp only [outcomes, List.mem_flatMap, List.mem_map] at h
  obtain ⟨o1, h1, o2, h2, heq⟩ := h
  injection heq with hx hy
  exact ⟨o1, o2, h1, h2, hx.symm, hy.symm⟩

theorem outcomes_str_cap {l s : List Char} {cap : Option (List Char)}
    {rest : List Char} (h : (cap, rest) ∈ outcomes (.str l) s) :
    cap = none := by
  simp only [outcomes] at h
  split at h <;> simp_all

theorem outcomes_plusG_cap {p : Char → Bool} {s : List Char}
    {cap : Option (List Char)} {rest : List Char}
    (h : (cap, rest) ∈ outcomes (.plusG p) s) :
    cap = none ∧ rest.length < s.length := by
  simp only [outcomes, List.mem_map, List.mem_reverse] at h
  obtain ⟨t, ht, heq⟩ := h
  obtain ⟨h1, h2⟩ := Prod.mk.injEq .. ▸ heq
  exact ⟨h1.symm, h2 ▸ sufsAsc_drop_lt ht⟩

theorem outcomes_grp_inv {r : Re} {s : List Char} {cap : Option (List Char)}
    {rest : List Char} (h : (cap, rest) ∈ outcomes (.grp r) s) :
    ∃ o, o ∈ outcomes r s ∧
      cap = some (s.take (s.length - o.2.length)) ∧ rest = o.2 := by
  simp only [outcomes, List.mem_map] at h
  obtain ⟨o, ho, heq⟩ := h
  injection heq with hx hy
  exact ⟨o, ho, hx.symm, hy.symm⟩

/-- Every way a pattern can match consumes a prefix (the remaining input is
a suffix of the input), and every captured group consists of characters of
the input. -/
theorem outcomes_chars :
    ∀ (r : Re) {s : List Char} {cap : Option (List Char)} {rest : List Char},
      (cap, rest) ∈ outcomes r s →
      rest <:+ s ∧ ∀ g, cap = some g → ∀ c ∈ g, c ∈ s := by
  intro r
  induction r with
  | str l =>
    intro s cap rest h
    simp only [outcomes] at h
    split at h
    · simp only [List.mem_singleton, Prod.mk.injEq] at h
      refine ⟨h.2 ▸ List.drop_suffix _ _, ?_⟩
      intro g hg
      rw [h.1] at hg
      simp at hg
    · simp at h
  | cat a b iha ihb =>
    intro s cap rest h
    obtain ⟨o1, o2, h1, h2, hcap, hrest⟩ := mem_outcomes_cat h
    have ha := @iha s o1.1 o1.2 (by simpa using h1)
    have hb := @ihb o1.2 o2.1 o2.2 (by simpa using h2)
    refine ⟨hrest ▸ hb.1.trans ha.1, ?_⟩
    intro g hg c hc
    rw [hcap] at hg
    match ho1 : o1.1 with
    | some g1 =>
      rw [ho1] at hg
      simp only [Option.some_orElse, Option.some.injEq] at hg
      exact ha.2 g1 ho1 c (hg ▸ hc)
    | none =>
      rw [ho1] at hg
      simp only [Option.none_orElse] at hg
      exact ha.1.sublist.subset (hb.2 g hg c hc)
  | alt a b iha ihb =>
    intro s cap rest h
    simp only [outcomes, List.mem_append] at h
    rcases h with h | h
    · exact iha h
    · exact ihb h
  | starG p =>
    intro s cap rest h
    simp only [outcomes, List.mem_map, List.mem_reverse] at h
    obtain ⟨t, ht, heq⟩ := h
    obtain ⟨h1, h2⟩ := Prod.mk.injEq .. ▸ heq
    refine ⟨h2 ▸ sufsAsc_suffix ht, ?_⟩
    intro g hg
    rw [← h1] at hg
    simp at hg
  | plusG p =>
    intro s cap rest h
    simp only [outcomes, List.mem_map, List.mem_reverse] at h
    obtain ⟨t, ht, heq⟩ := h
    obtain ⟨h1, h2⟩ := Prod.mk.injEq .. ▸ heq
    refine ⟨h2 ▸ sufsAsc_suffix (List.drop_subset 1 _ ht), ?_⟩
    intro g hg
    rw [← h1] at hg
    simp at hg
  | plusL p =>
    intro s cap rest h
    simp only [outcomes, List.mem_map] at h
    obtain ⟨t, ht, heq⟩ := h
    obtain ⟨h1, h2⟩ := Prod.mk.injEq .. ▸ heq
    refine ⟨h2 ▸ sufsAsc_suffix (List.drop_subset 1 _ ht), ?_⟩
    intro g hg
    rw [← h1] at hg
    simp at hg
  | grp r ih =>
    intro s cap rest h
    obtain ⟨o, ho, hcap, hrest⟩ := outcomes_grp_inv h
    have hr := @ih s o.1 o.2 (by simpa using ho)
    refine ⟨hrest ▸ hr.1, ?_⟩
    intro g hg c hc
    rw [hcap] at hg
    simp only [Option.some.injEq] at hg
    exact (List.take_sublist _ _).subset (hg ▸ hc)
  | eos =>
    intro s cap rest h
    simp only [outcomes] at h
    split at h
    · simp only [List.mem_singleton, Prod.mk.injEq] at h
      refine ⟨h.2 ▸ List.suffix_refl s, ?_⟩
      intro g hg
      rw [h.1] at hg
      simp at hg
    · simp at h

theorem searchFrom_chars {r : Re} :
    ∀ {s : List Char} {cap : Option (List Char)} {rest : List Char},
      searchFrom r s = some (cap, rest) →
      rest <:+ s ∧ ∀ g, cap = some g → ∀ c ∈ g, c ∈ s := by
  intro s
  induction s with
  | nil =>
    intro cap rest h
    simp only [searchFrom] at h
    cases ho : (outcomes r []).head? with
    | none => rw [ho] at h; simp at h
    | some o =>
      rw [ho] at h
      obtain ⟨rfl⟩ := Option.some.injEq .. ▸ h
      exact outcomes_chars r (List.mem_of_mem_head? ho)
  | cons c cs ih =>
    intro cap rest h
    simp only [searchFrom] at h
    cases ho : (outcomes r (c :: cs)).head? with
    | some o =>
      rw [ho] at h
      obtain ⟨rfl⟩ := Option.some.injEq .. ▸ h
      exact outcomes_chars r (List.mem_of_mem_head? ho)
    | none =>
      rw [ho] at h
      have := ih h
      exact ⟨this.1.trans (List.suffix_cons c cs),
        fun g hg d hd => List.mem_cons_of_mem c (this.2 g hg d hd)⟩

theorem refindallF_chars {r : Re} :
    ∀ (fuel : Nat) {s : List Char} {g : List Char},
      g ∈ refindallF r fuel s → ∀ c ∈ g, c ∈ s := by
  intro fuel
  induction fuel with
  | zero => intro s g hg; simp [refindallF] at hg
  | succ n ih =>
    intro s g hg
    simp only [refindallF] at hg
    split at hg
    · simp at hg
    · rename_i cap rest hs
      have hspec := searchFrom_chars hs
      split at hg
      · rcases List.mem_cons.mp hg with rfl | hmem
        · intro c hc
          cases cap with
          | none => simp [Option.getD] at hc
          | some gg => exact hspec.2 gg rfl c (by simpa using hc)
        · intro c hc
          exact hspec.1.sublist.subset (ih hmem c hc)
      · rcases List.mem_singleton.mp hg with rfl
        intro c hc
        cases cap with
        | none => simp [Option.getD] at hc
        | some gg => exact hspec.2 gg rfl c (by simpa using hc)

theorem refindall_chars {r : Re} {s g : List Char}
    (hg : g ∈ refindall r s) : ∀ c ∈ g, c ∈ s :=
  refindallF_chars s.length hg

theorem reSearchGroup_chars {r : Re} {s g : List Char}
    (h : reSearchGroup r s = some g) : ∀ c ∈ g, c ∈ s := by
  unfold reSearchGroup at h
  cases hs : searchFrom r s with
  | none => rw [hs] at h; simp at h
  | some o =>
    rw [hs] at h
    obtain ⟨cap, rest⟩ := o
    cases cap with
    | none => simp at h
    | some gg =>
      simp only [Option.some.injEq] at h
      exact h ▸ (searchFrom_chars hs).2 gg rfl

/-! ### Non-emptiness of the `should\s+(\w+)` capture -/

theorem outcomes_shouldWord_cap {s : List Char}
    {cap : Option (List Char)} {rest : List Char}
    (h : (cap, rest) ∈ outcomes shouldWordRe s) :
    ∃ g, cap = some g ∧ g ≠ [] := by
  obtain ⟨o1, o2, h1, h2, hcap, _⟩ :=
    mem_outcomes_cat (by simpa [shouldWordRe, reCat3] using h)
  obtain ⟨o3, o4, h3, h4, hcap2, _⟩ :=
    @mem_outcomes_cat (.plusG pyIsSpace) (.grp (.plusG pyIsWord)) _ _ _
      (by simpa using h2)
  have hstr : o1.1 = none := outcomes_str_cap (by simpa using h1)
  have hplus : o3.1 = none := (outcomes_plusG_cap (by simpa using h3)).1
  obtain ⟨o5, h5, hcap3, hrest3⟩ := outcomes_grp_inv (by simpa using h4)
  have hlt : o5.2.length < o3.2.length :=
    (outcomes_plusG_cap (by simpa using h5)).2
  refine ⟨o3.2.take (o3.2.length - o5.2.length), ?_, ?_⟩
  · rw [hcap, hstr, hcap2, hplus, hcap3]
    simp
  · have : (o3.2.take (o3.2.length - o5.2.length)).length ≥ 1 := by
      rw [List.length_take]
      omega
    intro hnil
    rw [hnil] at this
    simp at this

theorem searchFrom_shouldWord_cap {s : List Char}
    {cap : Option (List Char)} {rest : List Char}
    (h : searchFrom shouldWordRe s = some (cap, rest)) :
    ∃ g, cap = some g ∧ g ≠ [] := by
  induction s with
  | nil =>
    simp only [searchFrom] at h
    cases ho : (outcomes shouldWordRe []).head? with
    | none => rw [ho] at h; simp at h
    | some o =>
      rw [ho] at h
      obtain ⟨rfl⟩ := Option.some.injEq .. ▸ h
      exact outcomes_shouldWord_cap (List.mem_of_mem_head? ho)
  | cons c cs ih =>
    simp only [searchFrom] at h
    cases ho : (outcomes shouldWordRe (c :: cs)).head? with
    | some o =>
      rw [ho] at h
      obtain ⟨rfl⟩ := Option.some.injEq .. ▸ h
      exact outcomes_shouldWord_cap (List.mem_of_mem_head? ho)
    | none =>
      rw [ho] at h
      exact ih h

theorem reSearchGroup_shouldWord_ne_nil {s g : List Char}
    (h : reSearchGroup shouldWordRe s = some g) : g ≠ [] := by
  unfold reSearchGroup at h
  cases hs : searchFrom shouldWordRe s with
  | none => rw [hs] at h; simp at h
  | some o =>
    rw [hs] at h
    obtain ⟨cap, rest⟩ := o
    cases cap with
    | none => simp at h
    | some gg =>
      simp only [Option.some.injEq] at h
      obtain ⟨g2, hg2, hne⟩ := searchFrom_shouldWord_cap hs
      obtain ⟨rfl⟩ := Option.some.injEq .. ▸ hg2
      exact h ▸ hne

/-! ### Character-case and strip lemmas -/

theorem pyLowerChar_isUpper (c : Char) : (pyLowerChar c).isUpper = false := by
  unfold pyLowerChar
  split
  any_goals decide
  rename_i h1 h2 h3 h4 h5 h6 h7 h8 h9 h10 h11 h12 h13 h14 h15 h16 h17 h18
    h19 h20 h21 h22 h23 h24 h25 h26
  simp only [Char.isUpper]
  by_contra hcon
  rw [Bool.not_eq_false, Bool.and_eq_true] at hcon
  obtain ⟨hlo, hhi⟩ := hcon
  rw [decide_eq_true_iff] at hlo hhi
  have hlo2 : 65 ≤ c.val.toNat := hlo
  have hhi2 : c.val.toNat ≤ 90 := hhi
  interval_cases h : c.val.toNat <;>
    first
    | exact h1 (Char.ext (UInt32.ext h))
    | exact h2 (Char.ext (UInt32.ext h))
    | exact h3 (Char.ext (UInt32.ext h))
    | exact h4 (Char.ext (UInt32.ext h))
    | exact h5 (Char.ext (UInt32.ext h))
    | exact h6 (Char.ext (UInt32.ext h))
    | exact h7 (Char.ext (UInt32.ext h))
    | exact h8 (Char.ext (UInt32.ext h))
    | exact h9 (Char.ext (UInt32.ext h))
    | exact h10 (Char.ext (UInt32.ext h))
    | exact h11 (Char.ext (UInt32.ext h))
    | exact h12 (Char.ext (UInt32.ext h))
    | exact h13 (Char.ext (UInt32.ext h))
    | exact h14 (Char.ext (UInt32.ext h))
    | exact h15 (Char.ext (UInt32.ext h))
    | exact h16 (Char.ext (UInt32.ext h))
    | exact h17 (Char.ext (UInt32.ext h))
    | exact h18 (Char.ext (UInt32.ext h))
    | exact h19 (Char.ext (UInt32.ext h))
    | exact h20 (Char.ext (UInt32.ext h))
    | exact h21 (Char.ext (UInt32.ext h))
    | exact h22 (Char.ext (UInt32.ext h))
    | exact h23 (Char.ext (UInt32.ext h))
    | exact h24 (Char.ext (UInt32.ext h))
    | exact h25 (Char.ext (UInt32.ext h))
    | exact h26 (Char.ext (UInt32.ext h))

theorem mem_pyStrip {s : List Char} {c : Char} (h : c ∈ pyStrip s) :
    c ∈ s := by
  unfold pyStrip at h
  rw [List.mem_reverse] at h
  have h2 := (List.dropWhile_sublist _).subset h
  rw [List.mem_reverse] at h2
  exact (List.dropWhile_sublist _).subset h2

theorem mem_pyLower_isUpper {s : List Char} {c : Char}
    (h : c ∈ pyLower s) : c.isUpper = false := by
  unfold pyLower at h
  rw [List.mem_map] at h
  obtain ⟨d, _, rfl⟩ := h
  exact pyLowerChar_isUpper d

/-- All characters of the normalised text `requirement_text.lower().strip()`
are lower-case (ASCII model). -/
theorem normalized_isUpper {s : List Char} {c : Char}
    (h : c ∈ pyStrip (pyLower s)) : c.isUpper = false :=
  mem_pyLower_isUpper (mem_pyStrip h)

/-! ### Parser field invariants -/

theorem actionKeywords_ne_nil : ∀ k ∈ actionKeywords, k.isEmpty = false := by
  decide

theorem actionKeywords_noUpper :
    ∀ k ∈ actionKeywords, ∀ c ∈ k, c.isUpper = false := by
  decide

theorem extractFeature_ne_nil (t : List Char) :
    (extractFeature t).isEmpty = false := by
  unfold extractFeature
  split
  · rename_i k hk
    exact actionKeywords_ne_nil k (List.mem_of_find?_eq_some hk)
  · split
    · rename_i w hw
      rw [List.isEmpty_eq_false]
      exact reSearchGroup_shouldWord_ne_nil hw
    · decide

theorem extractFeature_noUpper (t : List Char)
    (ht : ∀ c ∈ t, c.isUpper = false) :
    ∀ c ∈ extractFeature t, c.isUpper = false := by
  unfold extractFeature
  split
  · rename_i k hk
    exact actionKeywords_noUpper k (List.mem_of_find?_eq_some hk)
  · split
    · rename_i w hw
      intro c hc
      exact ht c (reSearchGroup_chars hw c hc)
    · decide

theorem extractConditions_ne_nil (t : List Char) :
    (extractConditions t).isEmpty = false := by
  unfold extractConditions
  dsimp only
  split
  · decide
  · rename_i h
    rw [List.isEmpty_eq_false]
    exact h

theorem extractConditions_noUpper (t : List Char)
    (ht : ∀ c ∈ t, c.isUpper = false) :
    ∀ phr ∈ extractConditions t, ∀ c ∈ phr, c.isUpper = false := by
  unfold extractConditions
  dsimp only
  split
  · intro phr hphr
    simp only [List.mem_singleton] at hphr
    subst hphr
    decide
  · intro phr hphr c hc
    simp only [List.mem_append, List.mem_map] at hphr
    rcases hphr with ((⟨g, hg, rfl⟩ | ⟨g, hg, rfl⟩) | hv) | hiv
    · exact ht c (refindall_chars hg c (mem_pyStrip hc))
    · exact ht c (refindall_chars hg c (mem_pyStrip hc))
    · exact ht c (refindall_chars hv c hc)
    · exact ht c (refindall_chars hiv c hc)

theorem extractExpected_noUpper (t : List Char)
    (ht : ∀ c ∈ t, c.isUpper = false) :
    ∀ c ∈ extractExpected t, c.isUpper = false := by
  unfold extractExpected
  split
  · intro c hc
    rw [List.mem_append] at hc
    rcases hc with hc | hc
    · revert c hc; decide
    · exact extractFeature_noUpper t ht c hc
  · split
    · decide
    · split
      · rename_i g hg
        intro c hc
        exact ht c (reSearchGroup_chars hg c (mem_pyStrip hc))
      · decide

/-- `s` contains an upper-case (ASCII) character. -/
def hasUpper (s : List Char) : Bool := s.any Char.isUpper

/-- C1 (counterexample).  The claim asserts a non-empty `expected` field
for every input.  On the input `"should  .\nq"` the pattern
`should\s+(.+?)(?:\s*\.|\s*$)` backtracks to a whitespace-only capture
(CPython behaviour reproduced by the engine), which `.strip()` empties,
so `parse` returns `expected = ""`. -/
theorem c1_expected_empty_counterexample :
    (parseRequirement "should  .\nq".data).expected = [] := by decide

/-- C1 (amended): for every input string, `parse` terminates (it is a
total function) and returns a record whose `feature` field is a non-empty
string and whose `conditions` field is a non-empty sequence; the
`expected` field, however, can be the empty string. -/
theorem c1_parse_nonempty_fields (s : List Char) :
    (parseRequirement s).feature.isEmpty = false ∧
    (parseRequirement s).conditions.isEmpty = false := by
  unfold parseRequirement
  exact ⟨extractFeature_ne_nil _, extractConditions_ne_nil _⟩

/-- C10: every field of the record returned by `parse` other than
`original_text` is fully lower-case: `feature`, `expected` and each
element of `conditions` contain no (ASCII) upper-case character, because
they are extracted from the lower-cased normalised text or are lower-case
literals. -/
theorem c10_parse_fields_lowercase (s : List Char) :
    hasUpper (parseRequirement s).feature = false ∧
    (parseRequirement s).conditions.any hasUpper = false ∧
    hasUpper (parseRequirement s).expected = false := by
  have hnorm : ∀ c ∈ pyStrip (pyLower s), c.isUpper = false :=
    fun c hc => normalized_isUpper hc
  refine ⟨?_, ?_, ?_⟩
  · simp only [hasUpper, parseRequirement, List.any_eq_false,
      Bool.not_eq_true]
    exact fun c hc => extractFeature_noUpper _ hnorm c hc
  · simp only [hasUpper, parseRequirement, List.any_eq_false,
      Bool.not_eq_true]
    exact fun phr hphr c hc =>
      extractConditions_noUpper _ hnorm phr hphr c hc
  · simp only [hasUpper, parseRequirement, List.any_eq_false,
      Bool.not_eq_true]
    exact fun c hc => extractExpected_noUpper _ hnorm c hc

/-! ### C3: dispatch on the login example -/

/-- C3 (counterexample).  For
`"The system should allow login with username and password."` the
`with\s+([^.]+?)(?:\s+and|\s*\.|\s*$)` pattern stops its lazy capture at
the `\s+and` alternative, so the only extracted condition is
`"username"`: no element of `conditions` contains both `"username"` and
`"password"` as the claim asserts. -/
theorem c3_no_password_counterexample :
    ((parseRequirement
        "The system should allow login with username and password.".data
      ).conditions.any fun phr =>
        listContains phr "username".data &&
        listContains phr "password".data) = false := by
  decide

/-- C3 (amended): on the example input, `feature` is `"login"`,
`conditions` is exactly `["username"]` — it includes a phrase containing
`"username"`, but the capture stops before `" and password"` — and
`expected` is the (non-empty) clause following `"should"`. -/
theorem c3_login_example :
    (parseRequirement
        "The system should allow login with username and password.".data
      ).feature = "login".data ∧
    (parseRequirement
        "The system should allow login with username and password.".data
      ).conditions = ["username".data] ∧
    (parseRequirement
        "The system should allow login with username and password.".data
      ).expected = "allow login with username and password".data := by
  refine ⟨by decide, by decide, by decide⟩

/-! ### C2: the original text is embedded in every generated test -/

theorem sub_append_right {l m : List Char} (suf : List Char)
    (h : l <:+: m) : l <:+: m ++ suf := by
  obtain ⟨s, t, rfl⟩ := h
  exact ⟨s, t ++ suf, (List.append_assoc (s ++ l) t suf).symm⟩

theorem sub_append_self {l pre : List Char} : l <:+: pre ++ l :=
  ⟨pre, [], List.append_nil _⟩

/-- C2: `parse` preserves the untouched input in `original_text`, and
every template of the synthesizer embeds `original_text` verbatim in the
generated source (inside the docstring block); in particular
`synthesize(parse(text))` contains `text` verbatim. -/
theorem c2_roundtrip_embeds_original (text : List Char) :
    (parseRequirement text).original_text = text ∧
    (∀ req : StructuredRequirement,
      req.original_text <:+: generateTestFromRequirement req) ∧
    text <:+: generateTestFromRequirement (parseRequirement text) := by
  have hall : ∀ req : StructuredRequirement,
      req.original_text <:+: generateTestFromRequirement req := by
    intro req
    unfold generateTestFromRequirement generateTestCode
    split
    · exact sub_append_right _ (sub_append_right _ (sub_append_right _ (sub_append_right _ (sub_append_right _ (sub_append_self)))))
    · split
      · exact sub_append_right _ (sub_append_right _ (sub_append_right _ (sub_append_right _ (sub_append_right _ (sub_append_self)))))
      · split
        · exact sub_append_right _ (sub_append_right _ (sub_append_right _ (sub_append_right _ (sub_append_right _ (sub_append_right _ (sub_append_right _ (sub_append_self)))))))
        · split
          · exact sub_append_right _ (sub_append_right _ (sub_append_right _ (sub_append_right _ (sub_append_right _ (sub_append_right _ (sub_append_right _ (sub_append_self)))))))
          · exact sub_append_right _ (sub_append_right _ (sub_append_right _ (sub_append_right _ (sub_append_right _ (sub_append_right _ (sub_append_right _ (sub_append_right _ (sub_append_right _ (sub_append_right _ (sub_append_right _ (sub_append_right _ (sub_append_right _ (sub_append_right _ (sub_append_right _ (sub_append_right _ (sub_append_right _ (sub_append_right _ (sub_append_right _ (sub_append_right _ (sub_append_right _ (sub_append_self)))))))))))))))))))))
  exact ⟨rfl, hall, hall (parseRequirement text)⟩

/-! ### C4: feature extraction is first-match by vocabulary order -/

/-- C4: for every input, the `feature` field of `parse` is the first word
of the fixed ordered vocabulary occurring as a substring of the
lower-cased trimmed text (ties broken by vocabulary order); if no
vocabulary word occurs, it is the `should\s+(\w+)` capture when that
search succeeds, and the fallback `"unknown_feature"` otherwise. -/
theorem c4_feature_dispatch (s : List Char) :
    ((∃ k ∈ actionKeywords,
        listContains (pyStrip (pyLower s)) k = true) →
      ∃ pre post,
        actionKeywords = pre ++ (parseRequirement s).feature :: post ∧
        (∀ k ∈ pre, listContains (pyStrip (pyLower s)) k = false) ∧
        listContains (pyStrip (pyLower s)) (parseRequirement s).feature
          = true) ∧
    ((∀ k ∈ actionKeywords,
        listContains (pyStrip (pyLower s)) k = false) →
      (parseRequirement s).feature =
        match reSearchGroup shouldWordRe (pyStrip (pyLower s)) with
        | some w => w
        | none => "unknown_feature".data) := by
  constructor
  · intro hex
    cases hfind : actionKeywords.find?
        (fun k => listContains (pyStrip (pyLower s)) k) with
    | some k =>
      have hfeat : (parseRequirement s).feature = k := by
        show extractFeature (pyStrip (pyLower s)) = k
        unfold extractFeature
        rw [hfind]
      rw [List.find?_eq_some] at hfind
      obtain ⟨hpk, pre, post, hsplit, hpre⟩ := hfind
      refine ⟨pre, post, by rw [hfeat, hsplit], ?_, by rw [hfeat]; exact hpk⟩
      intro k2 hk2
      have := hpre k2 hk2
      simpa using this
    | none =>
      rw [List.find?_eq_none] at hfind
      obtain ⟨k, hk, hck⟩ := hex
      exact absurd hck (by simpa using hfind k hk)
  · intro hall
    show extractFeature (pyStrip (pyLower s)) = _
    unfold extractFeature
    rw [List.find?_eq_none.mpr (fun k hk => by simpa using hall k hk)]

/-- C4 (witness): on `"User login now"` the first clause applies: the
vocabulary splits before `"login"`, nothing earlier in vocabulary order
occurs in the text, and `"login"` occurs. -/
theorem c4_feature_dispatch_witness :
    ∃ pre post,
      actionKeywords =
        pre ++ (parseRequirement "User login now".data).feature :: post ∧
      (∀ k ∈ pre,
        listContains (pyStrip (pyLower "User login now".data)) k
          = false) ∧
      listContains (pyStrip (pyLower "User login now".data))
        (parseRequirement "User login now".data).feature = true :=
  (c4_feature_dispatch "User login now".data).1 (by decide)

/-! ### C5: grouping by literal feature value -/

/-- First-entry key lookup in a feature-group association list
(Python dict access). -/
def groupsFind (g : List (List Char × List StructuredRequirement))
    (f : List Char) : Option (List StructuredRequirement) :=
  match g with
  | [] => none
  | (k, rs) :: tl => if k = f then some rs else groupsFind tl f

/-- The distinct literal feature values of a batch, in first-encounter
order (the key order of the Python dict built by
`generate_multiple_files`). -/
def distinctFeats (reqs : List StructuredRequirement) : List (List Char) :=
  (reqs.map (·.feature)).foldl
    (fun ks f => if f ∈ ks then ks else ks ++ [f]) []

theorem groupsFind_insertReq
    (g : List (List Char × List StructuredRequirement))
    (f f2 : List Char) (r : StructuredRequirement) :
    groupsFind (insertReq g f r) f2 =
      if f2 = f then some ((groupsFind g f).getD [] ++ [r])
      else groupsFind g f2 := by
  induction g with
  | nil =>
    by_cases h : f2 = f
    · subst h; simp [insertReq, groupsFind]
    · simp only [insertReq, groupsFind]
      rw [if_neg (fun hh : f = f2 => h hh.symm), if_neg h]
  | cons kv tl ih =>
    obtain ⟨k, rs⟩ := kv
    by_cases hk : k = f
    · subst hk
      by_cases h2 : f2 = k
      · subst h2
        simp [insertReq, groupsFind]
      · simp only [insertReq, if_pos rfl, groupsFind]
        rw [if_neg (fun hh : k = f2 => h2 hh.symm), if_neg h2,
          if_neg (fun hh : k = f2 => h2 hh.symm)]
    · by_cases h2 : f2 = k
      · subst h2
        have hne : ¬ f2 = f := fun hh => hk (hh ▸ rfl)
        simp only [insertReq, if_neg hk, groupsFind, if_pos rfl, ih]
      · simp only [insertReq, if_neg hk, groupsFind, ih]
        rw [if_neg (fun hh : k = f2 => h2 hh.symm)]
        by_cases h3 : f2 = f
        · rw [if_pos h3, if_pos h3]
        · rw [if_neg h3, if_neg h3,
            if_neg (fun hh : k = f2 => h2 hh.symm)]

theorem groupsFind_foldl (f : List Char) :
    ∀ (reqs : List StructuredRequirement)
      (g : List (List Char × List StructuredRequirement)),
      groupsFind (reqs.foldl (fun g r => insertReq g r.feature r) g) f =
        if groupsFind g f = none ∧
            reqs.filter (fun r => r.feature == f) = [] then none
        else some ((groupsFind g f).getD [] ++
          reqs.filter (fun r => r.feature == f)) := by
  intro reqs
  induction reqs with
  | nil =>
    intro g
    cases hg : groupsFind g f <;> simp [hg]
  | cons r tl ih =>
    intro g
    rw [List.foldl_cons, ih]
    by_cases hf : r.feature = f
    · subst hf
      rw [groupsFind_insertReq, if_pos rfl]
      have hfilt : (r :: tl).filter (fun r2 => r2.feature == r.feature) =
          r :: tl.filter (fun r2 => r2.feature == r.feature) := by
        simp [List.filter_cons]
      rw [hfilt]
      simp [List.append_assoc]
    · rw [groupsFind_insertReq,
        if_neg (fun h : f = r.feature => hf h.symm)]
      have hfilt : (r :: tl).filter (fun r2 => r2.feature == f) =
          tl.filter (fun r2 => r2.feature == f) := by
        simp [List.filter_cons, hf]
      rw [hfilt]

theorem map_fst_insertReq
    (g : List (List Char × List StructuredRequirement))
    (f : List Char) (r : StructuredRequirement) :
    (insertReq g f r).map Prod.fst =
      if f ∈ g.map Prod.fst then g.map Prod.fst
      else g.map Prod.fst ++ [f] := by
  induction g with
  | nil => simp [insertReq]
  | cons kv tl ih =>
    obtain ⟨k, rs⟩ := kv
    by_cases hk : k = f
    · subst hk
      simp [insertReq]
    · simp only [insertReq, if_neg hk, List.map_cons, ih, List.mem_cons]
      by_cases hmem : f ∈ tl.map Prod.fst
      · simp [hmem, fun h : f = k => hk h.symm]
      · simp only [hmem, or_false, List.cons_append, if_false]
        rw [if_neg (fun h : f = k => hk h.symm)]

theorem map_fst_foldl :
    ∀ (reqs : List StructuredRequirement)
      (g : List (List Char × List StructuredRequirement)),
      (reqs.foldl (fun g r => insertReq g r.feature r) g).map Prod.fst =
        (reqs.map (·.feature)).foldl
          (fun ks f => if f ∈ ks then ks else ks ++ [f])
          (g.map Prod.fst) := by
  intro reqs
  induction reqs with
  | nil => intro g; simp
  | cons r tl ih =>
    intro g
    rw [List.foldl_cons, ih, List.map_cons, List.foldl_cons,
      map_fst_insertReq]

/-- C5: over any batch, `generate_multiple_files` produces exactly one
file per distinct literal feature value (so N files for N distinct
values), the returned paths are the per-feature
`<output_dir>/test_<feature>.py` names in group-encounter order, and the
group written to each feature's file consists of exactly the requirements
whose `feature` equals that literal value (so synonyms such as
`register`/`registration` land in different files). -/
theorem c5_group_by_feature (output_dir : List Char)
    (reqs : List StructuredRequirement) :
    generateMultipleFiles output_dir reqs =
      (distinctFeats reqs).map
        (fun f => pathJoin output_dir ("test_".data ++ f ++ ".py".data)) ∧
    (generateMultipleFiles output_dir reqs).length =
      (distinctFeats reqs).length ∧
    ∀ f, groupsFind (featureGroups reqs) f =
      if reqs.filter (fun r => r.feature == f) = [] then none
      else some (reqs.filter (fun r => r.feature == f)) := by
  have hkeys : (featureGroups reqs).map Prod.fst = distinctFeats reqs := by
    unfold featureGroups distinctFeats
    rw [map_fst_foldl]
    rfl
  have hmap : generateMultipleFiles output_dir reqs =
      (distinctFeats reqs).map
        (fun f => pathJoin output_dir ("test_".data ++ f ++ ".py".data)) := by
    unfold generateMultipleFiles
    rw [← hkeys, List.map_map]
    rfl
  refine ⟨hmap, by rw [hmap, List.length_map], ?_⟩
  intro f
  unfold featureGroups
  rw [groupsFind_foldl]
  simp [groupsFind]

/-! ### C6: exit-code to status-message mapping -/

theorem isPrefixOf_append {pat : List Char} :
    ∀ {a : List Char} (b : List Char), pat.isPrefixOf a = true →
      pat.isPrefixOf (a ++ b) = true := by
  induction pat with
  | nil => intro a b _; simp [List.isPrefixOf]
  | cons p ps ih =>
    intro a b h
    cases a with
    | nil => simp [List.isPrefixOf] at h
    | cons x xs =>
      simp only [List.isPrefixOf, Bool.and_eq_true] at h
      simp only [List.cons_append, List.isPrefixOf, Bool.and_eq_true]
      exact ⟨h.1, ih b h.2⟩

theorem listContains_append_left {a pat : List Char} (b : List Char)
    (h : listContains a pat = true) : listContains (a ++ b) pat = true := by
  induction a with
  | nil =>
    unfold listContains at h
    split at h
    · rename_i hp
      unfold listContains
      rw [if_pos (isPrefixOf_append b hp)]
    · simp at h
  | cons x xs ih =>
    unfold listContains at h
    split at h
    · rename_i hp
      unfold listContains
      rw [if_pos (isPrefixOf_append b hp)]
    · unfold listContains
      split
      · rfl
      · exact ih h

/-- C6 (counterexample).  The claim quotes the status message for exit
code 0 as `"all tests passed"`; the code's actual message is the string
`"🎉 All tests passed!"` (emoji prefix, capitalisation, exclamation
mark), so the quoted equality fails. -/
theorem c6_message_literal_counterexample :
    (getStatusMessage 0 == "all tests passed".data) = false := by decide

/-- C6 (amended): the exact status messages are
`"🎉 All tests passed!"` for exit code 0, `"❌ Some tests failed"` for 1,
`"⚠️ No tests collected"` for 5 and `"❓ Unknown exit code: <code>"` for
every other exit code; up to case and decoration they contain the
claim's quoted phrases ("all tests passed", "some tests failed",
"no tests collected", "unknown exit code"). -/
theorem c6_status_message_mapping (n : Int) :
    getStatusMessage 0 = "🎉 All tests passed!".data ∧
    getStatusMessage 1 = "❌ Some tests failed".data ∧
    getStatusMessage 5 = "⚠️ No tests collected".data ∧
    listContains (pyLower (getStatusMessage 0)) "all tests passed".data
      = true ∧
    listContains (pyLower (getStatusMessage 1)) "some tests failed".data
      = true ∧
    listContains (pyLower (getStatusMessage 5)) "no tests collected".data
      = true ∧
    getStatusMessage n =
      (if n = 0 then "🎉 All tests passed!".data
       else if n = 1 then "❌ Some tests failed".data
       else if n = 5 then "⚠️ No tests collected".data
       else "❓ Unknown exit code: ".data ++ (toString n).data) ∧
    (¬(n = 0 ∨ n = 1 ∨ n = 5) →
      listContains (pyLower (getStatusMessage n))
        "unknown exit code".data = true) := by
  refine ⟨by decide, by decide, by decide, by decide, by decide, by decide,
    rfl, ?_⟩
  intro hn
  have h0 : ¬ n = 0 := fun h => hn (Or.inl h)
  have h1 : ¬ n = 1 := fun h => hn (Or.inr (Or.inl h))
  have h5 : ¬ n = 5 := fun h => hn (Or.inr (Or.inr h))
  unfold getStatusMessage
  rw [if_neg h0, if_neg h1, if_neg h5]
  unfold pyLower
  rw [List.map_append]
  have hpre : listContains
      (List.map pyLowerChar "❓ Unknown exit code: ".data)
      "unknown exit code".data = true := by decide
  exact listContains_append_left _ hpre

/-- C6 (witness): exit code 7 is none of 0, 1, 5, and its lower-cased
message contains "unknown exit code". -/
theorem c6_status_message_mapping_witness :
    listContains (pyLower (getStatusMessage 7))
      "unknown exit code".data = true :=
  (c6_status_message_mapping 7).2.2.2.2.2.2.2 (by decide)

/-! ### C7 / C8: executor result records -/

/-- C7: for each report-running operation, when the external test-runner
process exceeds the timeout, the collaborator returns a structured
failure record — `success` is `False` and an `error` entry carries the
failure text — instead of propagating the exception (all three
operations are total functions of the process outcome; the JSON variant
catches the timeout in its generic `except Exception` handler). -/
theorem c7_timeout_returns_failure_record
    (now path rdir repdir e : List Char) (ex : Bool) (jd : PVal)
    (o2 : ProcOutcome) :
    dictGet (runHtmlReport now path ex (.timedOut e)) "success".data
      = some (.b false) ∧
    dictGet (runHtmlReport now path ex (.timedOut e)) "error".data
      = some (.s "Test execution timed out".data) ∧
    dictGet (runJsonReport now path ex jd (.timedOut e)) "success".data
      = some (.b false) ∧
    dictGet (runJsonReport now path ex jd (.timedOut e)) "error".data
      = some (.s e) ∧
    dictGet (runAllureReport now rdir repdir (.timedOut e) o2)
      "success".data = some (.b false) ∧
    dictGet (runAllureReport now rdir repdir (.timedOut e) o2)
      "error".data = some (.s "Test execution timed out".data) := by
  refine ⟨rfl, rfl, rfl, rfl, rfl, rfl⟩

/-- C8 (counterexample).  The claim says every result record on every
return path carries a timestamp (and exit code, stdout/stderr, report
type, message); but the timeout path of the HTML runner returns only
`{"error": …, "success": False}` — it has no `timestamp` key (nor
`exit_code`, `stdout`, `report_type` or `message`). -/
theorem c8_timeout_record_missing_keys_counterexample :
    dictGet (runHtmlReport "ts".data "p".data true (.timedOut "x".data))
      "timestamp".data = none ∧
    dictGet (runHtmlReport "ts".data "p".data true (.timedOut "x".data))
      "exit_code".data = none ∧
    dictGet (runHtmlReport "ts".data "p".data true (.timedOut "x".data))
      "stdout".data = none ∧
    dictGet (runHtmlReport "ts".data "p".data true (.timedOut "x".data))
      "report_type".data = none ∧
    dictGet (runHtmlReport "ts".data "p".data true (.timedOut "x".data))
      "message".data = none := by
  refine ⟨rfl, rfl, rfl, rfl, rfl⟩

/-- C8 (amended): on the path where the external process completes, the
result record of the HTML and Allure runners carries the timestamp, the
process exit code, the boolean success flag, the raw stdout/stderr text,
the report-type tag, and the status message keyed off the exit code; on
the timeout and unexpected-failure paths the record carries only an
`error` text and `success = False`. -/
theorem c8_result_record_keys
    (now path rdir repdir out err e : List Char) (ex : Bool)
    (rc rc2 : Int) :
    (dictGet (runHtmlReport now path ex (.completed rc out err))
        "timestamp".data = some (.s now) ∧
      dictGet (runHtmlReport now path ex (.completed rc out err))
        "exit_code".data = some (.i rc) ∧
      dictGet (runHtmlReport now path ex (.completed rc out err))
        "success".data = some (.b (rc == 0)) ∧
      dictGet (runHtmlReport now path ex (.completed rc out err))
        "stdout".data = some (.s out) ∧
      dictGet (runHtmlReport now path ex (.completed rc out err))
        "stderr".data = some (.s err) ∧
      dictGet (runHtmlReport now path ex (.completed rc out err))
        "report_type".data = some (.s "HTML".data) ∧
      dictGet (runHtmlReport now path ex (.completed rc out err))
        "message".data = some (.s (getStatusMessage rc))) ∧
    (dictGet (runAllureReport now rdir repdir (.completed rc out err)
          (.completed rc2 out err))
        "timestamp".data = some (.s now) ∧
      dictGet (runAllureReport now rdir repdir (.completed rc out err)
          (.completed rc2 out err))
        "exit_code".data = some (.i rc) ∧
      dictGet (runAllureReport now rdir repdir (.completed rc out err)
          (.completed rc2 out err))
        "success".data = some (.b (rc == 0)) ∧
      dictGet (runAllureReport now rdir repdir (.completed rc out err)
          (.completed rc2 out err))
        "stdout".data = some (.s out) ∧
      dictGet (runAllureReport now rdir repdir (.completed rc out err)
          (.completed rc2 out err))
        "stderr".data = some (.s err) ∧
      dictGet (runAllureReport now rdir repdir (.completed rc out err)
          (.completed rc2 out err))
        "report_type".data = some (.s "Allure".data) ∧
      dictGet (runAllureReport now rdir repdir (.completed rc out err)
          (.completed rc2 out err))
        "message".data = some (.s (getStatusMessage rc))) ∧
    runHtmlReport now path ex (.timedOut e) =
      [("error".data, .s "Test execution timed out".data),
       ("success".data, .b false)] ∧
    runHtmlReport now path ex (.failed e) =
      [("error".data, .s e), ("success".data, .b false)] ∧
    runAllureReport now rdir repdir (.timedOut e)
        (.completed rc2 out err) =
      [("error".data, .s "Test execution timed out".data),
       ("success".data, .b false)] ∧
    runAllureReport now rdir repdir (.failed e)
        (.completed rc2 out err) =
      [("error".data, .s e), ("success".data, .b false)] := by
  refine ⟨⟨rfl, rfl, rfl, rfl, rfl, rfl, rfl⟩,
    ⟨rfl, rfl, rfl, rfl, rfl, rfl, rfl⟩, rfl, rfl, rfl, rfl⟩

/-! ### C9: test-name derivation -/

/-- The claim's sanitisation: each maximal run of non-alphanumeric
characters replaced by a single `'_'` separator. -/
def claimSanitizeAux : Bool → List Char → List Char
  | _, [] => []
  | inRun, c :: cs =>
    if c.isAlphanum then c :: claimSanitizeAux false cs
    else if inRun then claimSanitizeAux true cs
    else '_' :: claimSanitizeAux true cs

/-- See `claimSanitizeAux`. -/
def claimSanitize (s : List Char) : List Char := claimSanitizeAux false s

/-- C9 (counterexample).  The source's cleaning step only replaces each
space and each hyphen by an underscore; it neither collapses runs nor
touches other non-alphanumeric characters.  For `feature = "a  b"` the
claim's "non-alphanumeric runs become one separator" sanitisation gives
`test_a_b`, while the code produces `test_a__b`. -/
theorem c9_sanitize_counterexample :
    genTestName "a  b".data [] = "test_a__b".data ∧
    "test_".data ++ claimSanitize "a  b".data = "test_a_b".data ∧
    (genTestName "a  b".data [] ==
      "test_".data ++ claimSanitize "a  b".data) = false := by
  refine ⟨by decide, by decide, by decide⟩

/-- `['and', 'or', 'with', 'using']` -/
def stopWords : List (List Char) :=
  ["and".data, "or".data, "with".data, "using".data]

/-- The claim's (amended) sanitisation: each space and each hyphen is
replaced by an underscore, all other characters are unchanged. -/
def sanitizeSpec (s : List Char) : List Char :=
  s.map fun c => if c = ' ' ∨ c = '-' then '_' else c

/-- The amended name-derivation contract, written from the claim's words:
`test_` + sanitised feature; when the conditions list is neither empty
nor exactly the sentinel, the first condition is sanitised the same way,
split at the separator, stop-words are discarded, and at most the first
two remaining tokens are appended. -/
def nameSpec (feature : List Char) (conditions : List (List Char)) :
    List Char :=
  let base := "test_".data ++ sanitizeSpec feature
  if conditions = [] ∨ conditions = ["no specific conditions".data] then
    base
  else
    let toks := ((sanitizeSpec (conditions.headD [])).splitOn '_').filter
      fun w => decide (w ∉ stopWords)
    if toks = [] then base
    else base ++ '_' :: List.intercalate "_".data (toks.take 2)

theorem cleanToken_eq_sanitizeSpec (s : List Char) :
    cleanToken s = sanitizeSpec s := by
  unfold cleanToken sanitizeSpec
  rw [List.map_map]
  apply List.map_congr_left
  intro c _
  by_cases h1 : c = ' '
  · subst h1; simp
  · by_cases h2 : c = '-'
    · subst h2; simp
    · simp [Function.comp, h1, h2]

theorem stopWord_pred (w : List Char) :
    (!(w == "and".data || w == "or".data || w == "with".data ||
        w == "using".data)) = decide (w ∉ stopWords) := by
  rw [Bool.eq_iff_iff]
  simp [stopWords, not_or, and_assoc]

/-- C9 (amended): the generated test-function name is derived
deterministically from `feature` and the first condition: the feature is
sanitised by replacing each space and each hyphen with an underscore
(runs are not collapsed, other characters are kept); when the conditions
list is neither empty nor exactly the sentinel, its first element is
sanitised the same way, tokens in the stop-word set
{"and","or","with","using"} are discarded, and at most the first two
remaining tokens are appended. -/
theorem c9_test_name_derivation (feature : List Char)
    (conditions : List (List Char)) :
    genTestName feature conditions = nameSpec feature conditions := by
  unfold genTestName nameSpec
  rw [cleanToken_eq_sanitizeSpec, cleanToken_eq_sanitizeSpec]
  have hpred : (fun w => !(w == "and".data || w == "or".data ||
      w == "with".data || w == "using".data))
      = (fun w : List Char => decide (w ∉ stopWords)) :=
    funext stopWord_pred
  rw [hpred]
  split
  · simp
  · dsimp only
    split
    · simp
    · rfl
